import Mathlib

/-!
Verification of the memory-scanning engine of `a53_sla_ripper/sla_ripper.py`.

This file gives a shallow embedding of the stateful parts of the program —
the `USBErrorRecovery` error-recovery policy, the `QFPROMExtractor` scan
controller and transport layer, the `SLAResponseLogger` diagnostics
collector, and the `FirehoseXMLHandler` response classifier — and proves
properties about them.  Byte strings are modelled as `List Nat`
(each element a byte value), machine integers as `Nat`, wall-clock
side effects (`time.sleep`, timestamps from `datetime.now()`) are elided,
and fallible channels are modelled as oracle functions describing what the
device / external process would answer at each address.
-/

namespace SLARipper

/-! ## Error-recovery policy (`USBErrorRecovery`, sla_ripper.py lines 334-438)

The mutable instance attributes of `USBErrorRecovery` become an explicit
`ErrorState` record threaded through `handle_error` / `reset_error_count`.
The `timestamp` field of `last_error` comes from the wall clock and is not
modelled; every other field is kept.
-/

/-- The `self.last_error` dict set by `handle_error` (minus the wall-clock
`timestamp` entry). -/
structure LastError where
  address : Nat
  code : Nat
  count : Nat
deriving DecidableEq

/-- One entry of `self.skip_regions` (Python keys `start`, `end`, `reason`). -/
structure SkipRegion where
  startAddr : Nat
  endAddr : Nat
  reason : String
deriving DecidableEq

/-- The mutable state of a `USBErrorRecovery` instance. -/
structure ErrorState where
  error_threshold : Nat
  error_count : Nat
  last_error : Option LastError
  last_good_address : Option Nat
  skip_regions : List SkipRegion
deriving DecidableEq

/-- `USBErrorRecovery.__init__`: threshold 5, count 0, no errors, no skips. -/
def initState : ErrorState := ⟨5, 0, none, none, []⟩

/-- The recovery-action dicts returned by `handle_error`, as a tagged variant
(each constructor records the dict's `next_address`, `skip_size`/`delay_ms`
and `reason` entries). -/
inductive RecoveryAction
  | skip_to_next_block (next_address skip_size : Nat) (reason : String)
  | retry (next_address delay_ms : Nat) (reason : String)
  | skip_address (next_address skip_size : Nat) (reason : String)
deriving DecidableEq

/-- Whether an action is the `skip_to_next_block` variant. -/
def RecoveryAction.isSkipBlock : RecoveryAction → Bool
  | .skip_to_next_block _ _ _ => true
  | _ => false

/-- The fall-through tail of `handle_error` (lines 412-421): reset the
counter when it reached 3, then return the `skip_address` dict. -/
def defaultSkip (st : ErrorState) (address : Nat) : RecoveryAction × ErrorState :=
  let st2 := if 3 ≤ st.error_count then { st with error_count := 0 } else st
  (.skip_address (address + 4) 4 "graceful_skip", st2)

/-- `USBErrorRecovery.handle_error` (lines 351-421).  `response_data` is
accepted, as in the source, but only stored indirectly (the source merely
logs it).  The `time.sleep(2)` in the `0xff` branch is a wall-clock effect
and is not modelled. -/
def handle_error (st : ErrorState) (address error_code : Nat)
    (response_data : Option (List Nat)) : RecoveryAction × ErrorState :=
  let _ := response_data
  let count := st.error_count + 1
  let st1 : ErrorState :=
    { st with error_count := count, last_error := some ⟨address, error_code, count⟩ }
  if error_code = 0x04 then
    if st1.error_threshold ≤ st1.error_count then
      let next_addr := ((address + 0x1000) / 0x1000) * 0x1000
      let st2 := { st1 with
        skip_regions := st1.skip_regions ++ [⟨address, next_addr, "0x04_errors"⟩] }
      (.skip_to_next_block next_addr 0x1000 "error_code_0x04", st2)
    else
      defaultSkip st1 address
  else if error_code = 0xff then
    if st1.error_count < 3 then
      (.retry address 2000 "timeout_recovery", st1)
    else
      defaultSkip st1 address
  else
    defaultSkip st1 address

/-- `USBErrorRecovery.reset_error_count` (lines 423-427). -/
def reset_error_count (st : ErrorState) : ErrorState := { st with error_count := 0 }

/-- One client interaction with a `USBErrorRecovery` instance: either a
`handle_error` call or a `reset_error_count` call. -/
inductive RecEvent
  | err (address code : Nat) (resp : Option (List Nat))
  | reset
deriving DecidableEq

/-- Run a sequence of interactions against the recovery state, collecting
the actions returned by the `handle_error` calls in order. -/
def runEvents (st : ErrorState) : List RecEvent → ErrorState × List RecoveryAction
  | [] => (st, [])
  | .reset :: rest => runEvents (reset_error_count st) rest
  | .err a c r :: rest =>
      let ar := handle_error st a c r
      let fin := runEvents ar.2 rest
      (fin.1, ar.1 :: fin.2)

lemma handle_error_step (st : ErrorState) (a c : Nat) (r : Option (List Nat))
    (hthr : st.error_threshold = 5) (hec : st.error_count ≤ 2) :
    (handle_error st a c r).2.error_count ≤ 2 ∧
    (handle_error st a c r).2.error_threshold = 5 ∧
    (handle_error st a c r).1.isSkipBlock = false ∧
    (handle_error st a c r).2.skip_regions = st.skip_regions := by
  unfold handle_error defaultSkip
  dsimp only
  split_ifs <;>
    simp_all [RecoveryAction.isSkipBlock] <;>
    omega

lemma runEvents_inv (evs : List RecEvent) :
    ∀ st : ErrorState, st.error_threshold = 5 → st.error_count ≤ 2 →
      (runEvents st evs).1.error_count ≤ 2 ∧
      (runEvents st evs).1.skip_regions = st.skip_regions ∧
      ∀ act ∈ (runEvents st evs).2, act.isSkipBlock = false := by
  induction evs with
  | nil => intro st _ hec; simpa [runEvents] using hec
  | cons e rest ih =>
    intro st hthr hec
    cases e with
    | reset =>
      have h := ih (reset_error_count st) (by simpa [reset_error_count] using hthr)
        (by simp [reset_error_count])
      simpa [runEvents, reset_error_count] using h
    | err a c r =>
      have hstep := handle_error_step st a c r hthr hec
      have h := ih (handle_error st a c r).2 hstep.2.1 hstep.1
      refine ⟨by simpa [runEvents] using h.1, ?_, ?_⟩
      · have := h.2.1
        simp only [runEvents]
        rw [this, hstep.2.2.2]
      · intro act hact
        simp only [runEvents, List.mem_cons] at hact
        rcases hact with h1 | h1
        · subst h1; exact hstep.2.2.1
        · exact h.2.2 act h1

/-- C2: starting from a fresh `USBErrorRecovery` instance, after any finite
sequence of `handle_error` / `reset_error_count` calls the stored
`error_count` is at most 2, no `handle_error` call in the sequence ever
returned the `skip_to_next_block` action, and `skip_regions` is still
empty.  (Every prefix of a sequence is itself a sequence, so the bound
holds after every call.) -/
theorem c2_error_count_bounded (evs : List RecEvent) :
    (runEvents initState evs).1.error_count ≤ 2 ∧
    (runEvents initState evs).1.skip_regions = [] ∧
    ∀ act ∈ (runEvents initState evs).2, act.isSkipBlock = false := by
  have h := runEvents_inv evs initState rfl (by simp [initState])
  exact ⟨h.1, by simpa [initState] using h.2.1, h.2.2⟩

/-- The C1 scenario: five consecutive `0x04` errors at increasing
addresses, against a fresh recovery instance. -/
def c1Events : List RecEvent :=
  [.err 0x00701000 0x04 none, .err 0x00701004 0x04 none, .err 0x00701008 0x04 none,
   .err 0x0070100c 0x04 none, .err 0x00701010 0x04 none]

/-- C1 (code bug): five consecutive `0x04` errors at increasing addresses
never reach the threshold — the default branch resets the counter to 0 on
the third call, so all five calls return `skip_address`, no
`skip_to_next_block` action is ever emitted, and no `SkipRegion` is
recorded.  This contradicts the documented intent of
`error_threshold = 5` ("Errors before shifting address") and the spec's
`SkipBlock` property. -/
theorem c1_five_consecutive_0x04_never_skip_block :
    (runEvents initState c1Events).2 =
      [.skip_address 0x00701004 4 "graceful_skip",
       .skip_address 0x00701008 4 "graceful_skip",
       .skip_address 0x0070100c 4 "graceful_skip",
       .skip_address 0x00701010 4 "graceful_skip",
       .skip_address 0x00701014 4 "graceful_skip"] ∧
    (runEvents initState c1Events).1.skip_regions = [] ∧
    (runEvents initState c1Events).1.error_count = 2 := by
  refine ⟨rfl, rfl, rfl⟩

/-- C4: from a fresh instance, the first two `0xff` (timeout) errors
produce `retry` actions returning to the same address with a 2000 ms
cooldown, and the third consecutive `0xff` error produces `skip_address`
and resets the counter to 0. -/
theorem c4_timeout_retry_then_skip (a1 a2 a3 : Nat) :
    ((handle_error initState a1 0xff none).1 = .retry a1 2000 "timeout_recovery") ∧
    ((handle_error (handle_error initState a1 0xff none).2 a2 0xff none).1
        = .retry a2 2000 "timeout_recovery") ∧
    ((handle_error (handle_error (handle_error initState a1 0xff none).2 a2 0xff none).2
        a3 0xff none).1 = .skip_address (a3 + 4) 4 "graceful_skip") ∧
    ((handle_error (handle_error (handle_error initState a1 0xff none).2 a2 0xff none).2
        a3 0xff none).2.error_count = 0) := by
  simp [handle_error, defaultSkip, initState]

/-- C3 counterexample: during a scan configured with step size 8, a
`handle_error` call taking the default branch (here, error code `0x05`)
still returns `next_address = address + 4` and `skip_size = 4` — not
`address + step` / `step` as the claim states for the scan's step size. -/
theorem c3_counterexample :
    (handle_error initState 0x00700000 0x05 none).1
      = RecoveryAction.skip_address (0x00700000 + 4) 4 "graceful_skip" ∧
    (handle_error initState 0x00700000 0x05 none).1
      ≠ RecoveryAction.skip_address (0x00700000 + 8) 8 "graceful_skip" := by
  refine ⟨rfl, by decide⟩

/-- C3 (amended): every `handle_error` call that takes the default branch
(`0x04` below threshold, `0xff` with post-increment count at or above 3,
or any other code) returns `skip_address` with `next_address = address + 4`
and `skip_size = 4` — the constants 4 being the hard-coded default step,
independent of the scan's configured step size — and the consecutive
counter is reset to 0 exactly when the post-increment count is ≥ 3,
being left at the post-increment value (1 or 2) otherwise. -/
theorem c3_default_branch_amended (st : ErrorState) (address code : Nat)
    (resp : Option (List Nat)) (hthr : st.error_threshold = 5)
    (hdef : (code = 0x04 ∧ st.error_count + 1 < 5) ∨
            (code = 0xff ∧ 3 ≤ st.error_count + 1) ∨
            (code ≠ 0x04 ∧ code ≠ 0xff)) :
    (handle_error st address code resp).1
      = .skip_address (address + 4) 4 "graceful_skip" ∧
    (handle_error st address code resp).2.error_count
      = if 3 ≤ st.error_count + 1 then 0 else st.error_count + 1 := by
  unfold handle_error defaultSkip
  dsimp only
  rcases hdef with ⟨h1, h2⟩ | ⟨h1, h2⟩ | ⟨h1, h2⟩ <;>
    split_ifs <;> simp_all <;> omega

/-- Witness for the amended C3 theorem at a concrete input. -/
theorem c3_default_branch_amended_witness :
    (handle_error initState 0 0x05 none).1
      = RecoveryAction.skip_address (0 + 4) 4 "graceful_skip" ∧
    (handle_error initState 0 0x05 none).2.error_count
      = if 3 ≤ initState.error_count + 1 then 0 else initState.error_count + 1 :=
  c3_default_branch_amended initState 0 0x05 none rfl
    (Or.inr (Or.inr ⟨by decide, by decide⟩))

/-! ## Scan controller (`QFPROMExtractor.scan_memory`, lines 874-982)

The per-address read (`self._read_single_address`) is abstracted as an
oracle `read : Nat → ReadSig` describing, for each address, whether the
read returns normally (`ret`, with `some` bytes or `none` on failure),
raises `KeyboardInterrupt` (`intr`), or raises another exception (`exc`).
The `while` loop is modelled by structural recursion on the fuel
`end_addr - cur`, which is sufficient because the effective step is ≥ 1;
the `try/except` blocks of `scan_memory` are modelled by the loop
returning the results accumulated in `self.scan_results` up to the raising
address together with the raised signal, which `scan_memory` discards
(the handlers return `self.scan_results`).  Logging, printing, progress
reports and the results-file append are side effects outside the model.
-/

/-- The signal produced by one `_read_single_address` call: a normal
return (`ret`), a `KeyboardInterrupt` (`intr`), or another exception
(`exc`). -/
inductive ReadSig
  | ret (d : Option (List Nat))
  | intr
  | exc
deriving DecidableEq

/-- Whether the signal is a normal return. -/
def ReadSig.isRet : ReadSig → Bool
  | .ret _ => true
  | _ => false

/-- What a raised exception was, for the record. -/
inductive ExcKind
  | interrupted
  | errored
deriving DecidableEq

/-- `NULL_PATTERN = b'\x00\x00\x00\x00'` (line 660). -/
def nullPattern : List Nat := [0, 0, 0, 0]

/-- One lowercase hex digit, as produced by Python's `%x` formatting. -/
def hexChar (n : Nat) : Char :=
  if n < 10 then Char.ofNat (48 + n) else Char.ofNat (87 + n)

/-- `f'{b:02x}'` for a byte value `b < 256`. -/
def byteHex (b : Nat) : String :=
  String.mk [hexChar (b / 16 % 16), hexChar (b % 16)]

/-- `' '.join(f'{b:02x}' for b in data)` (line 928). -/
def hexJoin (d : List Nat) : String :=
  String.intercalate " " (d.map byteHex)

/-- `bytes.hex()`: concatenated two-digit lowercase hex. -/
def bytesHex (d : List Nat) : String :=
  String.join (d.map byteHex)

/-- The per-address storage decision of the loop body (lines 921-942):
`None` or short reads are failures and store nothing; data equal to the
null pattern is a honeypot and stores nothing; otherwise the address maps
to the space-joined hex string. -/
def entryOf (address : Nat) (data : Option (List Nat)) : Option (Nat × String) :=
  match data with
  | none => none
  | some d =>
    if d.length < 4 then none
    else if d = nullPattern then none
    else some (address, hexJoin d)

/-- The step actually used by `scan_memory`: `if step < 1: step = 4`
(lines 890-891). -/
def effStep (step : Nat) : Nat := if step < 1 then 4 else step

lemma effStep_pos (step : Nat) : 0 < effStep step := by
  unfold effStep; split <;> omega

/-- The `while current_addr < end_addr` loop of `scan_memory`, by fuel
recursion.  Returns the addresses at which a read was attempted (in
order), the accumulated `scan_results` entries (in order), and the raised
signal if the sweep was cut short.  Fuel `end_addr - cur` always
suffices when `0 < step`. -/
def scanGo (readf : Nat → ReadSig) (end_addr step : Nat) :
    Nat → Nat → List Nat × List (Nat × String) × Option ExcKind
  | 0, _ => ([], [], none)
  | fuel + 1, cur =>
    if cur < end_addr then
      match readf cur with
      | .intr => ([cur], [], some .interrupted)
      | .exc => ([cur], [], some .errored)
      | .ret d =>
        let rest := scanGo readf end_addr step fuel (cur + step)
        (cur :: rest.1,
         (match entryOf cur d with
          | some p => p :: rest.2.1
          | none => rest.2.1),
         rest.2.2)
    else ([], [], none)

/-- `QFPROMExtractor.scan_memory`: the returned `scan_results` dictionary,
as the ordered list of (address, hex-string) insertions.  The `try/except
KeyboardInterrupt / except Exception` handlers both return
`self.scan_results`, so the raised signal is discarded. -/
def scan_memory (readf : Nat → ReadSig) (start_addr end_addr step : Nat) :
    List (Nat × String) :=
  (scanGo readf end_addr (effStep step) (end_addr - start_addr) start_addr).2.1

/-- The addresses at which `scan_memory` attempted a read, in order. -/
def scanAttempted (readf : Nat → ReadSig) (start_addr end_addr step : Nat) :
    List Nat :=
  (scanGo readf end_addr (effStep step) (end_addr - start_addr) start_addr).1

/-- The arithmetic progression `cur, cur + step, …` strictly below
`end_addr`, by the same fuel recursion. -/
def progGo (end_addr step : Nat) : Nat → Nat → List Nat
  | 0, _ => []
  | fuel + 1, cur =>
    if cur < end_addr then cur :: progGo end_addr step fuel (cur + step) else []

/-- The full address progression of a scan over `[start_addr, end_addr)`
with the effective step. -/
def progressionOf (start_addr end_addr step : Nat) : List Nat :=
  progGo end_addr (effStep step) (end_addr - start_addr) start_addr

/-- The entry a given address contributes to the results, given the read
oracle: nothing if the read raised or failed or hit the null pattern. -/
def discover (readf : Nat → ReadSig) (a : Nat) : Option (Nat × String) :=
  match readf a with
  | .ret d => entryOf a d
  | _ => none

lemma scanGo_results_eq (readf : Nat → ReadSig) (e s : Nat) :
    ∀ fuel cur, (scanGo readf e s fuel cur).2.1
      = ((scanGo readf e s fuel cur).1).filterMap (discover readf) := by
  intro fuel
  induction fuel with
  | zero => intro cur; simp [scanGo]
  | succ fuel ih =>
    intro cur
    rw [scanGo]
    split
    · cases hr : readf cur with
      | intr => simp [discover, hr]
      | exc => simp [discover, hr]
      | ret d =>
        simp only [List.filterMap_cons, discover, hr]
        cases entryOf cur d <;> simp [ih]
    · simp

lemma scanGo_attempted_prefix (readf : Nat → ReadSig) (e s : Nat) :
    ∀ fuel cur, ∃ rest,
      progGo e s fuel cur = (scanGo readf e s fuel cur).1 ++ rest := by
  intro fuel
  induction fuel with
  | zero => intro cur; exact ⟨[], by simp [scanGo, progGo]⟩
  | succ fuel ih =>
    intro cur
    rw [scanGo, progGo]
    split
    · cases hr : readf cur with
      | intr => exact ⟨progGo e s fuel (cur + s), by simp⟩
      | exc => exact ⟨progGo e s fuel (cur + s), by simp⟩
      | ret d =>
        obtain ⟨rest, hrest⟩ := ih (cur + s)
        exact ⟨rest, by simp [hrest]⟩
    · exact ⟨[], rfl⟩

lemma scanGo_attempted_pure (readf : Nat → ReadSig) (e s : Nat)
    (hpure : ∀ a, (readf a).isRet = true) :
    ∀ fuel cur, (scanGo readf e s fuel cur).1 = progGo e s fuel cur := by
  intro fuel
  induction fuel with
  | zero => intro cur; simp [scanGo, progGo]
  | succ fuel ih =>
    intro cur
    rw [scanGo, progGo]
    split
    · cases hr : readf cur with
      | intr => have := hpure cur; rw [hr] at this; simp [ReadSig.isRet] at this
      | exc => have := hpure cur; rw [hr] at this; simp [ReadSig.isRet] at this
      | ret d => simp [ih]
    · rfl

lemma mem_progGo (e s : Nat) (hs : 0 < s) :
    ∀ fuel cur, e ≤ cur + fuel →
      ∀ a, a ∈ progGo e s fuel cur ↔ a < e ∧ ∃ i, a = cur + i * s := by
  intro fuel
  induction fuel with
  | zero =>
    intro cur hle a
    simp only [progGo, List.not_mem_nil, false_iff]
    rintro ⟨hae, i, rfl⟩
    omega
  | succ fuel ih =>
    intro cur hle a
    rw [progGo]
    split
    · rename_i hcur
      rw [List.mem_cons, ih (cur + s) (by omega) a]
      constructor
      · rintro (rfl | ⟨hae, i, rfl⟩)
        · exact ⟨hcur, 0, by omega⟩
        · exact ⟨hae, i + 1, by ring⟩
      · rintro ⟨hae, i, rfl⟩
        cases i with
        | zero => left; omega
        | succ j => right; exact ⟨hae, j, by ring⟩
    · rename_i hcur
      simp only [List.not_mem_nil, false_iff]
      rintro ⟨hae, i, rfl⟩
      omega

lemma progGo_lower_bound (e s : Nat) :
    ∀ fuel cur a, a ∈ progGo e s fuel cur → cur ≤ a := by
  intro fuel
  induction fuel with
  | zero => intro cur a ha; simp [progGo] at ha
  | succ fuel ih =>
    intro cur a ha
    rw [progGo] at ha
    split at ha
    · rcases List.mem_cons.mp ha with rfl | h
      · exact Nat.le_refl _
      · have := ih (cur + s) a h; omega
    · simp at ha

lemma progGo_sorted (e s : Nat) (hs : 0 < s) :
    ∀ fuel cur, (progGo e s fuel cur).Pairwise (· < ·) := by
  intro fuel
  induction fuel with
  | zero => intro cur; simp [progGo]
  | succ fuel ih =>
    intro cur
    rw [progGo]
    split
    · exact List.Pairwise.cons
        (fun a ha => by have := progGo_lower_bound e s fuel (cur + s) a ha; omega)
        (ih (cur + s))
    · exact List.Pairwise.nil

/-- C9: `scan_memory` never propagates an exception and loses no
already-accumulated discovery: for every read oracle — including oracles
that raise `KeyboardInterrupt` or any other exception at some address —
the returned dictionary is exactly the successful discoveries among the
attempted addresses; the attempted addresses are an initial segment of
the full address progression; and when no read raises, the sweep attempts
the whole progression (a single failed read never stops it). -/
theorem c9_scan_absorbs_failures (readf : Nat → ReadSig)
    (start_addr end_addr step : Nat) :
    scan_memory readf start_addr end_addr step
      = (scanAttempted readf start_addr end_addr step).filterMap (discover readf) ∧
    (∃ rest, progressionOf start_addr end_addr step
      = scanAttempted readf start_addr end_addr step ++ rest) ∧
    ((∀ a, (readf a).isRet = true) →
      scanAttempted readf start_addr end_addr step
        = progressionOf start_addr end_addr step) := by
  refine ⟨?_, ?_, ?_⟩
  · exact scanGo_results_eq readf end_addr (effStep step) (end_addr - start_addr) start_addr
  · exact scanGo_attempted_prefix readf end_addr (effStep step) (end_addr - start_addr) start_addr
  · intro hpure
    exact scanGo_attempted_pure readf end_addr (effStep step) hpure
      (end_addr - start_addr) start_addr

/-- Witness for C9: with an oracle that never raises, the attempted
addresses are the whole progression. -/
theorem c9_scan_absorbs_failures_witness :
    scanAttempted (fun _ => ReadSig.ret none) 0 16 4 = progressionOf 0 16 4 :=
  (c9_scan_absorbs_failures (fun _ => ReadSig.ret none) 0 16 4).2.2 (fun _ => rfl)

/-- Concrete illustration of the C9 interruption scenario: reads succeed at
`0x0`, `0x4`, `0x8` and `KeyboardInterrupt` is raised at `0xc`; the scan
returns exactly the three discoveries made before the interruption. -/
theorem scan_interrupted_three_discoveries :
    scan_memory (fun a => if a < 12 then .ret (some [1, 2, 3, 4]) else .intr) 0 100 4
      = [(0, "01 02 03 04"), (4, "01 02 03 04"), (8, "01 02 03 04")] ∧
    scanAttempted (fun a => if a < 12 then .ret (some [1, 2, 3, 4]) else .intr) 0 100 4
      = [0, 4, 8, 12] := by
  refine ⟨rfl, rfl⟩

/-- C5: for every pure read oracle and every range with `start < end`
(step < 1 replaced by the default 4), the scan attempts reads at exactly
the addresses `start, start+step, …` strictly below `end`, each exactly
once in strictly ascending order, and the result dictionary contains an
entry only for addresses whose read returned at least 4 bytes not equal
to the all-zero pattern — `None`, short, and all-zero reads are never
stored. -/
theorem c5_scan_order_and_filter (readv : Nat → Option (List Nat))
    (start_addr end_addr step : Nat) (h : start_addr < end_addr) :
    (scanAttempted (fun a => ReadSig.ret (readv a)) start_addr end_addr step).Pairwise (· < ·) ∧
    (∀ a, a ∈ scanAttempted (fun a => ReadSig.ret (readv a)) start_addr end_addr step ↔
      a < end_addr ∧ ∃ i, a = start_addr + i * effStep step) ∧
    (∀ a v, (a, v) ∈ scan_memory (fun a => ReadSig.ret (readv a)) start_addr end_addr step →
      ∃ d, readv a = some d ∧ 4 ≤ d.length ∧ d ≠ nullPattern ∧ v = hexJoin d) := by
  have hpure : ∀ a, ((fun a => ReadSig.ret (readv a)) a).isRet = true := fun _ => rfl
  have hatt : scanAttempted (fun a => ReadSig.ret (readv a)) start_addr end_addr step
      = progressionOf start_addr end_addr step :=
    scanGo_attempted_pure _ end_addr (effStep step) hpure (end_addr - start_addr) start_addr
  refine ⟨?_, ?_, ?_⟩
  · rw [hatt]
    exact progGo_sorted end_addr (effStep step) (effStep_pos step)
      (end_addr - start_addr) start_addr
  · intro a
    rw [hatt]
    exact mem_progGo end_addr (effStep step) (effStep_pos step)
      (end_addr - start_addr) start_addr (by omega) a
  · intro a v hmem
    have hres := scanGo_results_eq (fun a => ReadSig.ret (readv a)) end_addr (effStep step)
      (end_addr - start_addr) start_addr
    rw [scan_memory] at hmem
    rw [hres] at hmem
    obtain ⟨x, _, hx⟩ := List.mem_filterMap.mp hmem
    simp only [discover] at hx
    revert hx
    cases hd : readv x with
    | none => intro hx; simp [entryOf] at hx
    | some d =>
      intro hx
      simp only [entryOf] at hx
      split_ifs at hx with h1 h2
      obtain ⟨rfl, rfl⟩ := hx
      exact ⟨d, hd, by omega, h2, rfl⟩

/-- Witness for C5 at a concrete range and oracle. -/
theorem c5_scan_order_and_filter_witness :
    (0 : Nat) < 8 ∧
    ((scanAttempted (fun a => ReadSig.ret ((fun _ => some [1, 2, 3, 4]) a)) 0 8 4).Pairwise (· < ·) ∧
    (∀ a, a ∈ scanAttempted (fun a => ReadSig.ret ((fun _ => some [1, 2, 3, 4]) a)) 0 8 4 ↔
      a < 8 ∧ ∃ i, a = 0 + i * effStep 4) ∧
    (∀ a v, (a, v) ∈ scan_memory (fun a => ReadSig.ret ((fun _ => some [1, 2, 3, 4]) a)) 0 8 4 →
      ∃ d, (fun _ => some [1, 2, 3, 4]) a = some d ∧ 4 ≤ d.length ∧ d ≠ nullPattern ∧ v = hexJoin d)) :=
  ⟨by decide, c5_scan_order_and_filter (fun _ => some [1, 2, 3, 4]) 0 8 4 (by decide)⟩

/-! ## Diagnostics collector (`SLAResponseLogger`, lines 445-616)

The four append-only streams of the logger become explicit lists; the
`log_*` methods append one entry each.  Timestamps arrive as `String`
arguments exactly as in the source.  The UTF-8 lossy decode inside
`_safe_decode` is abstracted as a `dec` function argument (its output
never influences any property proved here).  The challenge-vault file
write inside `log_sla_challenge` and the JSON file write inside
`save_diagnostics` are disk side effects outside the model; we model the
*document* `save_diagnostics` serializes.  Crucially, the Python dict
literal in `save_diagnostics` lists the key `"loader_responses"` twice
(once with the count, once with the list); dict-display semantics keep
the later value, which `diagDict` reproduces by sequential insertion. -/

/-- One entry of `self.responses` (built in `log_response`; the Python
key `type` is rendered `rtype`). -/
structure ResponseEntry where
  timestamp : String
  source : String
  rtype : String
  status : String
  data_hex : String
  data_size : Nat
  data_ascii : String
deriving DecidableEq

/-- One entry of `self.sla_challenges` (built in `log_sla_challenge`). -/
structure ChallengeEntry where
  timestamp : String
  challenge_hex : String
  size : Nat
deriving DecidableEq

/-- One entry of `self.loader_responses` (built in `log_loader_response`). -/
structure LoaderEntry where
  timestamp : String
  loader : String
  response : String
  success : Bool
deriving DecidableEq

/-- One entry of `self.errors` (built in `log_error`; the free-form
`context` dict is modelled as a string association list). -/
structure ErrorEntry where
  timestamp : String
  etype : String
  message : String
  context : List (String × String)
deriving DecidableEq

/-- The mutable state of an `SLAResponseLogger` instance. -/
structure SLALogger where
  responses : List ResponseEntry
  sla_challenges : List ChallengeEntry
  loader_responses : List LoaderEntry
  errors : List ErrorEntry
deriving DecidableEq

/-- `SLAResponseLogger.__init__`: four empty streams. -/
def initLogger : SLALogger := ⟨[], [], [], []⟩

/-- `SLAResponseLogger._safe_decode` (lines 560-571): decode the first
200 bytes (lossy decode abstracted as `dec`), appending an ellipsis note
when data was longer. -/
def safe_decode (dec : List Nat → String) (data : List Nat) : String :=
  let decoded := dec (data.take 200)
  if 200 < data.length then
    decoded ++ "... (+" ++ toString (data.length - 200) ++ " bytes)"
  else decoded

/-- `SLAResponseLogger.log_response` (lines 466-489). -/
def log_response (st : SLALogger) (timestamp source rtype : String)
    (data : List Nat) (status : String) (dec : List Nat → String) : SLALogger :=
  { st with responses := st.responses ++
      [⟨timestamp, source, rtype, status, bytesHex data, data.length,
        safe_decode dec data⟩] }

/-- `SLAResponseLogger.log_sla_challenge` (lines 491-516); the raw vault
append is a file side effect outside the model. -/
def log_sla_challenge (st : SLALogger) (timestamp : String)
    (challenge_data : List Nat) : SLALogger :=
  { st with sla_challenges := st.sla_challenges ++
      [⟨timestamp, bytesHex challenge_data, challenge_data.length⟩] }

/-- `SLAResponseLogger.log_loader_response` (lines 518-537). -/
def log_loader_response (st : SLALogger) (timestamp loader_name response : String)
    (success : Bool) : SLALogger :=
  { st with loader_responses := st.loader_responses ++
      [⟨timestamp, loader_name, response, success⟩] }

/-- `SLAResponseLogger.log_error` (lines 539-558). -/
def log_error (st : SLALogger) (timestamp etype msg : String)
    (context : List (String × String)) : SLALogger :=
  { st with errors := st.errors ++ [⟨timestamp, etype, msg, context⟩] }

/-- A value of the diagnostics JSON document. -/
inductive DiagValue
  | str (s : String)
  | num (n : Nat)
  | responsesV (l : List ResponseEntry)
  | challengesV (l : List ChallengeEntry)
  | loadersV (l : List LoaderEntry)
  | errorsV (l : List ErrorEntry)
deriving DecidableEq

/-- Python-dict insertion: replace the value in place under an existing
key (keeping its position), otherwise append the binding. -/
def dictInsert : List (String × DiagValue) → String → DiagValue →
    List (String × DiagValue)
  | [], k, v => [(k, v)]
  | p :: rest, k, v =>
    if p.1 == k then (k, v) :: rest else p :: dictInsert rest k v

/-- Evaluate a Python dict display left to right (later duplicate keys
overwrite earlier ones). -/
def diagDict (kvs : List (String × DiagValue)) : List (String × DiagValue) :=
  kvs.foldl (fun m kv => dictInsert m kv.1 kv.2) []

/-- Python `xs[-n:]`: the most recent `n` entries (all of them when the
list is shorter). -/
def lastN (n : Nat) (xs : List α) : List α := xs.drop (xs.length - n)

/-- `SLAResponseLogger.save_diagnostics` (lines 573-599): the serialized
document, as the key/value pairs of the `diagnostics` dict literal in
source order.  The literal gives `"loader_responses"` twice — first the
count `len(self.loader_responses)`, then the full list — so the count is
evaluated and then overwritten. -/
def save_diagnostics (st : SLALogger) (timestamp : String) :
    List (String × DiagValue) :=
  diagDict
    [("timestamp", DiagValue.str timestamp),
     ("total_responses", DiagValue.num st.responses.length),
     ("sla_challenges_count", DiagValue.num st.sla_challenges.length),
     ("loader_responses", DiagValue.num st.loader_responses.length),
     ("errors_count", DiagValue.num st.errors.length),
     ("responses", DiagValue.responsesV (lastN 100 st.responses)),
     ("sla_challenges", DiagValue.challengesV st.sla_challenges),
     ("loader_responses", DiagValue.loadersV st.loader_responses),
     ("errors", DiagValue.errorsV (lastN 50 st.errors))]

/-- A logger that has recorded exactly one loader-launch response and
nothing else. -/
def c6Logger : SLALogger := log_loader_response initLogger "t0" "loader.elf" "ok" true

/-- C6 counterexample: after logging exactly one loader-launch response
(and nothing else), the saved document contains no field holding the
loader-launch count 1 — the `"loader_responses"` count entry of the dict
literal is overwritten by the full list under the same key — so the
document does not contain the full count of each of the four streams. -/
theorem c6_counterexample :
    (∀ p ∈ save_diagnostics c6Logger "t1", p.2 ≠ DiagValue.num 1) ∧
    List.lookup "loader_responses" (save_diagnostics c6Logger "t1")
      = some (DiagValue.loadersV [⟨"t0", "loader.elf", "ok", true⟩]) := by
  refine ⟨by decide, rfl⟩

/-- C6 (amended): the saved document contains the full counts of the
responses, SLA-challenge and error streams, exactly the most recent 100
response entries and the most recent 50 error entries (older entries
silently dropped), the complete untruncated challenge list, and — instead
of the loader-launch count, which the duplicate dict key overwrites — the
complete loader-response list; the document has 8 fields, not 9. -/

theorem c6_amended (st : SLALogger) (ts : String) :
    List.lookup "total_responses" (save_diagnostics st ts)
      = some (DiagValue.num st.responses.length) ∧
    List.lookup "sla_challenges_count" (save_diagnostics st ts)
      = some (DiagValue.num st.sla_challenges.length) ∧
    List.lookup "errors_count" (save_diagnostics st ts)
      = some (DiagValue.num st.errors.length) ∧
    List.lookup "responses" (save_diagnostics st ts)
      = some (DiagValue.responsesV (lastN 100 st.responses)) ∧
    List.lookup "errors" (save_diagnostics st ts)
      = some (DiagValue.errorsV (lastN 50 st.errors)) ∧
    List.lookup "sla_challenges" (save_diagnostics st ts)
      = some (DiagValue.challengesV st.sla_challenges) ∧
    List.lookup "loader_responses" (save_diagnostics st ts)
      = some (DiagValue.loadersV st.loader_responses) ∧
    (save_diagnostics st ts).length = 8 := by
  simp [save_diagnostics, diagDict, dictInsert, List.lookup]

/-- `sum(1 for r in self.loader_responses if r['success'])` (line 614). -/
def loader_success_count (ls : List LoaderEntry) : Nat :=
  (ls.filter (fun r => r.success)).length

/-- `max(len(self.loader_responses), 1)` (line 614). -/
def loader_denominator (ls : List LoaderEntry) : Nat := max ls.length 1

/-- The loader success-rate percentage computed inside
`SLAResponseLogger.get_connection_summary` (line 614). -/
def loader_success_rate (ls : List LoaderEntry) : ℚ :=
  (loader_success_count ls : ℚ) / (loader_denominator ls : ℚ) * 100

/-- C10: with zero loader attempts the summary's success rate is 0%, and
for every list of attempts the divisor `max(attempts, 1)` is nonzero, so
the computation never divides by zero. -/
theorem c10_loader_rate_division_safe :
    loader_success_rate [] = 0 ∧
    ∀ ls : List LoaderEntry, (loader_denominator ls : ℚ) ≠ 0 := by
  constructor
  · simp [loader_success_rate, loader_success_count, loader_denominator]
  · intro ls
    have h : loader_denominator ls ≠ 0 := by
      have := Nat.le_max_right ls.length 1
      unfold loader_denominator
      omega
    exact_mod_cast h

/-! ## Response classifier (`FirehoseXMLHandler.parse_response`, lines 277-327)

The lossy UTF-8 decode (`response.decode('utf-8', errors='ignore')`) and
the regular-expression search for a quoted `value="…"` attribute are
abstracted as function arguments `dec` and `extractValue`: the properties
proved hold for *every* possible decode and extraction, so nothing about
them is assumed.  The `except` wrapper of `parse_response` can only fire
if `decode`/`hex` raise, which they cannot for `bytes` input, so it is not
modelled. -/

/-- Substring search over characters (Python's `in` operator on `str`). -/
def subSearch (pat : List Char) : List Char → Bool
  | [] => pat.isEmpty
  | c :: rest => pat.isPrefixOf (c :: rest) || subSearch pat rest

/-- `pat in s` for Python strings. -/
def containsSub (s pat : String) : Bool := subSearch pat.toList s.toList

/-- The dict returned by `parse_response` (`data` is initialised to `None`
and never assigned, so it stays an always-`none` field). -/
structure ParsedResponse where
  raw : String
  text : String
  status : String
  error : Option String
  data : Option String
deriving DecidableEq

/-- `FirehoseXMLHandler.parse_response` (lines 277-327): text-pattern
classification first (`ACK` / `NAK` / `ERROR`/`error` / `<log `), then the
first-byte `0x04` check, which overwrites whatever status the text rules
chose. -/
def parse_response (dec : List Nat → String) (extractValue : String → Option String)
    (response : List Nat) : ParsedResponse :=
  let response_str := dec response
  let base : ParsedResponse := ⟨bytesHex response, response_str, "unknown", none, none⟩
  let r1 :=
    if containsSub response_str "ACK" then
      { base with status := "ack" }
    else if containsSub response_str "NAK" then
      { base with status := "nak", error := some "Device NAK response" }
    else if containsSub response_str "ERROR" || containsSub response_str "error" then
      { base with status := "error", error := extractValue response_str }
    else if containsSub response_str "<log " then
      { base with status := "log" }
    else base
  if response.take 1 = [0x04] then
    { r1 with status := "error_code_0x04",
              error := some "Device returned error code 0x04 (Non-standard response)" }
  else r1

/-- C7: whenever the response's first byte is `0x04`, `parse_response`
classifies it as `error_code_0x04` — for every possible decoded text and
every possible extracted error detail, in particular when the text
contains `ACK`, `NAK`, `ERROR` or a log tag — so the first-byte rule takes
precedence over all text-based rules. -/
theorem c7_first_byte_0x04_wins (dec : List Nat → String)
    (extractValue : String → Option String) (response : List Nat)
    (h : response.take 1 = [0x04]) :
    (parse_response dec extractValue response).status = "error_code_0x04" ∧
    (parse_response dec extractValue response).error
      = some "Device returned error code 0x04 (Non-standard response)" := by
  unfold parse_response
  dsimp only
  rw [if_pos h]
  split_ifs <;> exact ⟨rfl, rfl⟩

/-- Witness for C7: a frame whose first byte is `0x04` but whose decoded
text contains the acknowledgement marker is still classified
`error_code_0x04`. -/
theorem c7_first_byte_0x04_wins_witness :
    ([0x04, 0x41, 0x43, 0x4b] : List Nat).take 1 = [0x04] ∧
    (parse_response (fun _ => "ACK") (fun _ => none) [0x04, 0x41, 0x43, 0x4b]).status
      = "error_code_0x04" ∧
    (parse_response (fun _ => "ACK") (fun _ => none) [0x04, 0x41, 0x43, 0x4b]).error
      = some "Device returned error code 0x04 (Non-standard response)" :=
  ⟨by decide, (c7_first_byte_0x04_wins (fun _ => "ACK") (fun _ => none) _ (by decide)).1,
   (c7_first_byte_0x04_wins (fun _ => "ACK") (fun _ => none) _ (by decide)).2⟩

/-! ## Transport (`QFPROMExtractor._read_single_address` and the two
channels, lines 720-872)

The native pyusb channel is modelled by an oracle `Nat → PyusbResult`
(what `device.read` yields at each address: a response, a
`USBTimeoutError`, or some other exception) held inside an
`Option` mirroring `self.device`; `self.use_pyusb` is a `Bool`.  The
secondary channel is an oracle `Nat → FallbackResult` (the subprocess
outcome: return code plus the output file's bytes if it exists, or an
exception such as the 10 s `subprocess` timeout), guarded by
`edl_configured`, which models `self.edl_binary` and `self.loader` both
being set.  Diagnostic logging and the 10 ms safety sleeps are side
effects outside the model; the `USBErrorRecovery` state is threaded
explicitly. -/

/-- What the native pyusb receive produces at one address. -/
inductive PyusbResult
  | ok (resp : List Nat)
  | timeout
  | exc
deriving DecidableEq

/-- What one invocation of the external EDL helper produces: a completed
process (return code and output-file bytes if the file exists), or an
exception. -/
inductive FallbackResult
  | proc (returncode : Int) (fileData : Option (List Nat))
  | exc
deriving DecidableEq

/-- `QFPROMExtractor._read_memory_pyusb` (lines 720-810).  A response
whose first byte is `0x04` triggers `handle_error(addr, 0x04, resp)` and
returns `None`; a timeout triggers `handle_error(addr, 0xff, None)` and
returns `None`; any other exception returns `None`; otherwise the error
counter is reset and the first 4 bytes are returned when at least 4
arrived. -/
def read_memory_pyusb (device : Option (Nat → PyusbResult)) (use_pyusb : Bool)
    (st : ErrorState) (address : Nat) : Option (List Nat) × ErrorState :=
  match device, use_pyusb with
  | none, _ => (none, st)
  | some _, false => (none, st)
  | some dev, true =>
    match dev address with
    | .exc => (none, st)
    | .timeout => (none, (handle_error st address 0xff none).2)
    | .ok resp =>
      if resp.take 1 = [0x04] then
        (none, (handle_error st address 0x04 (some resp)).2)
      else
        (if 4 ≤ resp.length then some (resp.take 4) else none,
         reset_error_count st)

/-- `QFPROMExtractor._read_memory_fallback` (lines 812-853): nothing
unless both the EDL binary and the loader are configured; a completed
process with return code 0 and an existing output file yields
`f.read(4)` when the file held at least 4 bytes; anything else is
`None`. -/
def read_memory_fallback (edl_configured : Bool) (fb : Nat → FallbackResult)
    (address : Nat) : Option (List Nat) :=
  if edl_configured = false then none
  else
    match fb address with
    | .exc => none
    | .proc returncode fileData =>
      if returncode = 0 then
        match fileData with
        | some content =>
          if (content.take 4).length = 4 then some (content.take 4) else none
        | none => none
      else none

/-- `QFPROMExtractor._read_single_address` (lines 855-872): try pyusb
first when available; fall back to the EDL binary when pyusb produced no
data. -/
def read_single_address (device : Option (Nat → PyusbResult)) (use_pyusb : Bool)
    (edl_configured : Bool) (fb : Nat → FallbackResult) (st : ErrorState)
    (address : Nat) : Option (List Nat) × ErrorState :=
  if use_pyusb && device.isSome then
    match read_memory_pyusb device use_pyusb st address with
    | (some data, st2) => (some data, st2)
    | (none, st2) => (read_memory_fallback edl_configured fb address, st2)
  else (read_memory_fallback edl_configured fb address, st)

lemma read_single_val (device : Option (Nat → PyusbResult)) (use_pyusb : Bool)
    (edl_configured : Bool) (fb : Nat → FallbackResult) (st : ErrorState)
    (address : Nat) :
    (read_single_address device use_pyusb edl_configured fb st address).1
      = match (read_memory_pyusb device use_pyusb st address).1 with
        | some d => some d
        | none => read_memory_fallback edl_configured fb address := by
  rcases device with _ | dev
  · cases use_pyusb <;> rfl
  · cases use_pyusb
    · rfl
    · show (match read_memory_pyusb (some dev) true st address with
            | (some data, st2) => (some data, st2)
            | (none, st2) => (read_memory_fallback edl_configured fb address, st2)).1 = _
      rcases hp : read_memory_pyusb (some dev) true st address with ⟨d', st2⟩
      cases d' <;> rfl

/-- C8: the unified 4-byte read tries the native pyusb channel first and
returns its bytes when it succeeds; on any native failure — including a
first-byte-`0x04` response, a timeout, or a short response — it falls
through to the secondary channel (which yields nothing when not
configured); and it returns `none` exactly when both channels produce
nothing. -/
theorem c8_read_single_fallback_order (device : Option (Nat → PyusbResult))
    (use_pyusb edl_configured : Bool) (fb : Nat → FallbackResult)
    (st : ErrorState) (address : Nat) :
    (∀ d, (read_memory_pyusb device use_pyusb st address).1 = some d →
      (read_single_address device use_pyusb edl_configured fb st address).1 = some d) ∧
    ((read_memory_pyusb device use_pyusb st address).1 = none →
      (read_single_address device use_pyusb edl_configured fb st address).1
        = read_memory_fallback edl_configured fb address) ∧
    ((read_single_address device use_pyusb edl_configured fb st address).1 = none ↔
      (read_memory_pyusb device use_pyusb st address).1 = none ∧
      read_memory_fallback edl_configured fb address = none) ∧
    (edl_configured = false → read_memory_fallback edl_configured fb address = none) ∧
    (∀ dev, device = some dev → use_pyusb = true →
      (dev address = .timeout → (read_memory_pyusb device use_pyusb st address).1 = none) ∧
      (∀ resp, dev address = .ok resp → resp.take 1 = [0x04] →
        (read_memory_pyusb device use_pyusb st address).1 = none) ∧
      (∀ resp, dev address = .ok resp → resp.length < 4 →
        (read_memory_pyusb device use_pyusb st address).1 = none)) := by
  have hv := read_single_val device use_pyusb edl_configured fb st address
  refine ⟨?_, ?_, ?_, ?_, ?_⟩
  · intro d hd
    rw [hv, hd]
  · intro hnone
    rw [hv, hnone]
  · rw [hv]
    rcases hp : (read_memory_pyusb device use_pyusb st address).1 with _ | d
    · simp
    · simp
  · intro h; subst h; rfl
  · rintro dev rfl rfl
    refine ⟨?_, ?_, ?_⟩
    · intro ht
      simp [read_memory_pyusb, ht]
    · intro resp hresp h04
      simp [read_memory_pyusb, hresp, h04]
    · intro resp hresp hshort
      simp only [read_memory_pyusb, hresp]
      split_ifs with h04 hlen
      · rfl
      · omega
      · rfl

/-- Witness for C8: native channel answers with a first-byte-`0x04` frame,
the configured secondary channel succeeds, and the unified read returns
the secondary channel's bytes. -/
theorem c8_read_single_fallback_order_witness :
    (read_memory_pyusb (some (fun _ => PyusbResult.ok [4, 1, 2, 3])) true initState 0).1
      = none ∧
    (read_single_address (some (fun _ => PyusbResult.ok [4, 1, 2, 3])) true true
        (fun _ => FallbackResult.proc 0 (some [9, 9, 9, 9])) initState 0).1
      = read_memory_fallback true (fun _ => FallbackResult.proc 0 (some [9, 9, 9, 9])) 0 :=
  ⟨by decide,
   (c8_read_single_fallback_order (some (fun _ => PyusbResult.ok [4, 1, 2, 3])) true true
      (fun _ => FallbackResult.proc 0 (some [9, 9, 9, 9])) initState 0).2.1 (by decide)⟩

end SLARipper
